import Mathlib

/-!
Verification of the path-based extraction/validation subsystem of the
`aws_lambda_decorators` library (`classes.py`, `decoders.py`, `decorators.py`,
`utils.py`, `validators.py`).

Python strings are embedded as `List Char` (ASCII payloads; the library's
paths, keys and messages are ASCII).  Python runtime values flowing through
the extraction pipeline are embedded as the inductive type `Val`; Python
floats and complex numbers are embedded with exact rationals (the only such
values the claims touch are zeros, which are exact).  Fallible Python code
(code that can raise) is embedded with `Except PyErr`.
-/

set_option maxRecDepth 4000

/-- Python strings, as lists of characters. -/
abbrev Str := List Char

/-- The Python exception kinds that the embedded code can raise. -/
inductive PyErr where
  | keyError
  | indexError
  | typeError
  | valueError
  | attributeError
  | syntaxError
  | unboundLocalError
  | jsonDecodeError
  | jwtDecodeError
  deriving DecidableEq, Repr

/-- Embedded Python values: the dynamic data the extraction pipeline walks.
Dictionaries are insertion-ordered string-keyed association lists, as the
library only ever indexes event/context dictionaries by string keys. -/
inductive Val where
  | null
  | bool (b : Bool)
  | int (n : Int)
  | float (q : ℚ)
  | complexV (re im : ℚ)
  | str (s : Str)
  | list (xs : List Val)
  | dict (entries : List (Str × Val))

/-- Truthiness of a Python value (`bool(v)`), as used by `if dict_value and ...`
and by `NonEmpty`. -/
def pyTruthy : Val → Bool
  | .null => false
  | .bool b => b
  | .int n => n != 0
  | .float q => q != 0
  | .complexV re im => re != 0 || im != 0
  | .str s => !s.isEmpty
  | .list xs => !xs.isEmpty
  | .dict es => !es.isEmpty

/-- The numeric content of a Python value, if it is numeric, as a complex
rational.  `bool` is a subclass of `int` in Python, so `True` reads as 1. -/
def pyNum? : Val → Option (ℚ × ℚ)
  | .bool b => some (if b then 1 else 0, 0)
  | .int n => some ((n : ℚ), 0)
  | .float q => some (q, 0)
  | .complexV re im => some (re, im)
  | _ => none

mutual

/-- Python `==` on embedded values: numbers compare numerically across
numeric types, strings as strings, lists pointwise, dictionaries entrywise
(the library never compares reordered dictionaries, so insertion-ordered
entrywise comparison is faithful for its uses). -/
def pyEq : Val → Val → Bool
  | .null, .null => true
  | .str a, .str b => a = b
  | .list a, .list b => pyEqList a b
  | .dict a, .dict b => pyEqDict a b
  | a, b =>
    match pyNum? a, pyNum? b with
    | some x, some y => x = y
    | _, _ => false

def pyEqList : List Val → List Val → Bool
  | [], [] => true
  | x :: xs, y :: ys => pyEq x y && pyEqList xs ys
  | _, _ => false

def pyEqDict : List (Str × Val) → List (Str × Val) → Bool
  | [], [] => true
  | (k, v) :: xs, (k2, v2) :: ys => k = k2 && pyEq v v2 && pyEqDict xs ys
  | _, _ => false

end

mutual

/-- Python `repr` of an embedded value (string escaping inside `repr` of a
string, and float/complex formatting, are abstracted: no claim depends on
them). -/
def pyRepr : Val → Str
  | .null => "None".toList
  | .bool b => if b then "True".toList else "False".toList
  | .int n => (toString n).toList
  | .float q => (toString q).toList
  | .complexV re im => (toString re).toList ++ '+' :: (toString im).toList ++ ['j']
  | .str s => '\'' :: (s ++ ['\''])
  | .list xs => '[' :: (pyReprList xs ++ [']'])
  | .dict es => '\x7b' :: (pyReprDict es ++ ['\x7d'])

def pyReprList : List Val → Str
  | [] => []
  | [x] => pyRepr x
  | x :: y :: xs => pyRepr x ++ ',' :: ' ' :: pyReprList (y :: xs)

def pyReprDict : List (Str × Val) → Str
  | [] => []
  | [(k, v)] => '\'' :: (k ++ '\'' :: ':' :: ' ' :: pyRepr v)
  | (k, v) :: e :: es =>
    '\'' :: (k ++ '\'' :: ':' :: ' ' :: pyRepr v) ++ ',' :: ' ' :: pyReprDict (e :: es)

end

/-- Python `str` of an embedded value: the string itself for strings,
`repr` otherwise. -/
def pyStr : Val → Str
  | .str s => s
  | v => pyRepr v


/-- Boolean test that `pat` starts the string `s`. -/
def strIsPre : Str → Str → Bool
  | [], _ => true
  | _ :: _, [] => false
  | c :: cs, d :: ds => c = d && strIsPre cs ds

/-- Python substring containment (`pat in s` for strings). -/
def isSubstring (pat : Str) : Str → Bool
  | [] => strIsPre pat []
  | c :: rest => strIsPre pat (c :: rest) || isSubstring pat rest

/-- Python `s.split(c)` for a one-character separator: always returns at
least one piece, and `"".split(c) == [""]`. -/
def pySplit (c : Char) : Str → List Str
  | [] => [[]]
  | ch :: rest =>
    match pySplit c rest with
    | [] => [[]]
    | h :: t => if ch = c then [] :: h :: t else (ch :: h) :: t

/-- Python slicing `s[a:b]` with non-negative bounds: empty when `b ≤ a`. -/
def pySlice (a b : Nat) (s : Str) : Str := (s.take b).drop a

/-- Index of the first occurrence of `c` in `s` (Python `s.find(c)`; the
source only calls it when the character is known to be present, so the
absent case may return the length). -/
def pyFindIdx (c : Char) : Str → Nat
  | [] => 0
  | d :: rest => if d = c then 0 else pyFindIdx c rest + 1

/-- Left-to-right scan behind `pyReplace`, structurally recursive on a fuel
that any bound of at least `s.length` makes irrelevant (each step consumes
at least one character). -/
def pyReplaceAux (pat repl : Str) : Nat → Str → Str
  | _, [] => []
  | 0, s => s
  | fuel + 1, c :: rest =>
    if !pat.isEmpty && strIsPre pat (c :: rest) then
      repl ++ pyReplaceAux pat repl fuel ((c :: rest).drop pat.length)
    else
      c :: pyReplaceAux pat repl fuel rest

/-- Python `s.replace(pat, repl)`: replace every (leftmost, non-overlapping)
occurrence.  The source only ever replaces non-empty patterns, so the empty
pattern is mapped to the identity. -/
def pyReplace (pat repl s : Str) : Str := pyReplaceAux pat repl s.length s

/-- Python `str.isdigit` restricted to ASCII digits (the annotations the
library handles are ASCII). -/
def pyIsDigit (s : Str) : Bool := !s.isEmpty && s.all Char.isDigit

/-- Python `int(s)` for a string of digits. -/
def digitsToNat (s : Str) : Nat :=
  s.foldl (fun acc c => acc * 10 + (c.toNat - '0'.toNat)) 0

/-- Python `str.upper` (ASCII). -/
def pyUpper (s : Str) : Str := s.map Char.toUpper

/-- The Python keywords (`keyword.kwlist`). -/
def pyKeywords : List Str :=
  ["False", "None", "True", "and", "as", "assert", "async", "await", "break",
   "class", "continue", "def", "del", "elif", "else", "except", "finally",
   "for", "from", "global", "if", "import", "in", "is", "lambda", "nonlocal",
   "not", "or", "pass", "raise", "return", "try", "while", "with",
   "yield"].map String.toList

/-- Python `str.isidentifier`, restricted to ASCII identifiers. -/
def pyIsIdentifier : Str → Bool
  | [] => false
  | c :: rest => (c.isAlpha || c = '_') && rest.all (fun d => d.isAlphanum || d = '_')

/-- `utils.is_valid_variable_name`: a Python identifier that is not a
keyword. -/
def isValidVariableName (s : Str) : Bool :=
  pyIsIdentifier s && !pyKeywords.contains s

/-- JSON string escaping as performed by `json.dumps` (quotes and
backslashes; the library's messages contain no control characters). -/
def jsonEscape : Str → Str
  | [] => []
  | c :: rest =>
    if c = '"' then '\\' :: '"' :: jsonEscape rest
    else if c = '\\' then '\\' :: '\\' :: jsonEscape rest
    else c :: jsonEscape rest

mutual

/-- `json.dumps` with its default separators (`", "` between items and
`": "` after keys).  Floats/complexes are never fed to it by the error
envelope, so their formatting is a harmless approximation. -/
def pyJsonDumps : Val → Str
  | .null => "null".toList
  | .bool b => if b then "true".toList else "false".toList
  | .int n => (toString n).toList
  | .float q => (toString q).toList
  | .complexV re im => (toString re).toList ++ '+' :: (toString im).toList ++ ['j']
  | .str s => '"' :: (jsonEscape s ++ ['"'])
  | .list xs => '[' :: (pyJsonDumpsList xs ++ [']'])
  | .dict es => '\x7b' :: (pyJsonDumpsDict es ++ ['\x7d'])

def pyJsonDumpsList : List Val → Str
  | [] => []
  | [x] => pyJsonDumps x
  | x :: y :: xs => pyJsonDumps x ++ ',' :: ' ' :: pyJsonDumpsList (y :: xs)

def pyJsonDumpsDict : List (Str × Val) → Str
  | [] => []
  | [(k, v)] => '"' :: (jsonEscape k ++ '"' :: ':' :: ' ' :: pyJsonDumps v)
  | (k, v) :: e :: es =>
    '"' :: (jsonEscape k ++ '"' :: ':' :: ' ' :: pyJsonDumps v) ++
      ',' :: ' ' :: pyJsonDumpsDict (e :: es)

end

/-! ## validators.py -/

/-- The `CURRENCIES` literal of `validators.py` (a Python set literal; the
written duplicates are harmless for membership). -/
def CURRENCIES : List Str :=
  ([
   "AFN", "EUR", "ALL", "DZD", "USD", "EUR", "AOA", "XCD", "XCD", "ARS", "AMD",
   "AWG", "AUD", "EUR", "AZN", "BSD", "BHD", "BDT", "BBD", "BYN", "EUR", "BZD",
   "XOF", "BMD", "INR", "BTN", "BOB", "BOV", "USD", "BAM", "BWP", "NOK", "BRL",
   "USD", "BND", "BGN", "XOF", "BIF", "CVE", "KHR", "XAF", "CAD", "KYD", "XAF",
   "XAF", "CLP", "CLF", "CNY", "AUD", "AUD", "COP", "COU", "KMF", "CDF", "XAF",
   "NZD", "CRC", "XOF", "HRK", "CUP", "CUC", "ANG", "EUR", "CZK", "DKK", "DJF",
   "XCD", "DOP", "USD", "EGP", "SVC", "USD", "XAF", "ERN", "EUR", "ETB", "EUR",
   "FKP", "DKK", "FJD", "EUR", "EUR", "EUR", "XPF", "EUR", "XAF", "GMD", "GEL",
   "EUR", "GHS", "GIP", "EUR", "DKK", "XCD", "EUR", "USD", "GTQ", "GBP", "GNF",
   "XOF", "GYD", "HTG", "USD", "AUD", "EUR", "HNL", "HKD", "HUF", "ISK", "INR",
   "IDR", "XDR", "IRR", "IQD", "EUR", "GBP", "ILS", "EUR", "JMD", "JPY", "GBP",
   "JOD", "KZT", "KES", "AUD", "KPW", "KRW", "KWD", "KGS", "LAK", "EUR", "LBP",
   "LSL", "ZAR", "LRD", "LYD", "CHF", "EUR", "EUR", "MOP", "MKD", "MGA", "MWK",
   "MYR", "MVR", "XOF", "EUR", "USD", "EUR", "MRU", "MUR", "EUR", "XUA", "MXN",
   "MXV", "USD", "MDL", "EUR", "MNT", "EUR", "XCD", "MAD", "MZN", "MMK", "NAD",
   "ZAR", "AUD", "NPR", "EUR", "XPF", "NZD", "NIO", "XOF", "NGN", "NZD", "AUD",
   "USD", "NOK", "OMR", "PKR", "USD", "PAB", "USD", "PGK", "PYG", "PEN", "PHP",
   "NZD", "PLN", "EUR", "USD", "QAR", "EUR", "RON", "RUB", "RWF", "EUR", "SHP",
   "XCD", "XCD", "EUR", "EUR", "XCD", "WST", "EUR", "STN", "SAR", "XOF", "RSD",
   "SCR", "SLL", "SGD", "ANG", "XSU", "EUR", "EUR", "SBD", "SOS", "ZAR", "SSP",
   "EUR", "LKR", "SDG", "SRD", "NOK", "SZL", "SEK", "CHF", "CHE", "CHW", "SYP",
   "TWD", "TJS", "TZS", "THB", "USD", "XOF", "NZD", "TOP", "TTD", "TND", "TRY",
   "TMT", "USD", "AUD", "UGX", "UAH", "AED", "GBP", "USD", "USD", "USN", "UYU",
   "UYI", "UYW", "UZS", "VUV", "VES", "VND", "USD", "USD", "XPF", "MAD", "YER",
   "ZMW", "ZWL"   ] : List String).map String.toList

/-- `Mandatory.validate`: `value is not None and str(value)`, read through
Python truthiness (the raw return value is `False` or a string; the chain
only ever tests its truthiness). -/
def mandatoryValidate (value : Val) : Bool :=
  match value with
  | .null => false
  | v => !(pyStr v).isEmpty

/-- `RegexValidator.validate`: `None` is valid; otherwise
`self._regexp.fullmatch(value)`, which raises `TypeError` on a non-string.
The compiled pattern's matching itself is the abstract parameter
`fullmatch`. -/
def regexValidate (fullmatch : Str → Bool) (value : Val) : Except PyErr Bool :=
  match value with
  | .null => .ok true
  | .str s => .ok (fullmatch s)
  | _ => .error .typeError

/-- `SchemaValidator.validate`: `None` is valid; otherwise
`self._condition.validate(value) == value` with `SchemaError` mapped to
`False`.  The schema library is the abstract parameter `schemaOk`. -/
def schemaValidate (schemaOk : Val → Bool) (value : Val) : Bool :=
  match value with
  | .null => true
  | v => schemaOk v

/-- `Minimum.validate`: `None` is valid; numeric values (Python
`isinstance(value, (float, int))`, which includes `bool` and excludes
`complex`) are compared against the bound; everything else is invalid. -/
def minimumValidate (minimum : ℚ) (value : Val) : Bool :=
  match value with
  | .null => true
  | .bool b => minimum ≤ (if b then (1 : ℚ) else 0)
  | .int n => minimum ≤ (n : ℚ)
  | .float q => minimum ≤ q
  | _ => false

/-- `Maximum.validate` (mirror image of `Minimum.validate`). -/
def maximumValidate (maximum : ℚ) (value : Val) : Bool :=
  match value with
  | .null => true
  | .bool b => (if b then (1 : ℚ) else 0) ≤ maximum
  | .int n => (n : ℚ) ≤ maximum
  | .float q => q ≤ maximum
  | _ => false

/-- `MinLength.validate`: `None` is valid; otherwise
`len(str(value)) >= self._condition`. -/
def minLengthValidate (minLength : Nat) (value : Val) : Bool :=
  match value with
  | .null => true
  | v => minLength ≤ (pyStr v).length

/-- `MaxLength.validate`: `None` is valid; otherwise
`len(str(value)) <= self._condition`. -/
def maxLengthValidate (maxLength : Nat) (value : Val) : Bool :=
  match value with
  | .null => true
  | v => (pyStr v).length ≤ maxLength

/-- `Type.validate`: `None` is valid; otherwise
`isinstance(value, self._condition)`, the type test being the abstract
parameter `isInst`. -/
def typeValidate (isInst : Val → Bool) (value : Val) : Bool :=
  match value with
  | .null => true
  | v => isInst v

/-- `EnumValidator.validate`: `None` is valid; otherwise
`value in self._condition` (Python `in` compares with `==`). -/
def enumValidate (condition : List Val) (value : Val) : Bool :=
  match value with
  | .null => true
  | v => condition.any (fun c => pyEq v c)

/-- `NonEmpty.validate`: `None` and any value `== 0` (including `0`, `0.0`,
`0j` and `False`) are valid; otherwise the value's truthiness decides. -/
def nonEmptyValidate (value : Val) : Bool :=
  match value with
  | .null => true
  | v =>
    if pyEq v (.int 0) || pyEq v (.float 0) || pyEq v (.complexV 0 0) then true
    else pyTruthy v

/-- `DateValidator.validate`: `None` is valid; a string is checked by
`datetime.datetime.strptime` (abstract parameter `dateOk`, `ValueError`
already folded to `false`); a non-string makes `strptime` raise `TypeError`,
which is not caught (only `ValueError` is). -/
def dateValidate (dateOk : Str → Bool) (value : Val) : Except PyErr Bool :=
  match value with
  | .null => .ok true
  | .str s => .ok (dateOk s)
  | _ => .error .typeError

/-- `CurrencyValidator.validate`: `None` is valid; a string is uppercased
and looked up in `CURRENCIES`; a non-string raises `AttributeError`
(`value.upper()`). -/
def currencyValidate (value : Val) : Except PyErr Bool :=
  match value with
  | .null => .ok true
  | .str s => .ok (CURRENCIES.contains (pyUpper s))
  | _ => .error .attributeError

/-- `Validator.message`: `self._error_message.format(value=value,
condition=self._condition)` for the templates the library ships, which only
use the plain `\x7bvalue\x7d` and `\x7bcondition\x7d` fields. -/
def pyFormat (template : Str) (value condition : Str) : Str :=
  pyReplace ("\x7bcondition\x7d".toList) condition
    (pyReplace ("\x7bvalue\x7d".toList) value template)

/-- One validator as the chain sees it: its `validate` predicate (which can
raise), whether it is an instance (`hasattr(validator, "_error_message")`),
its instance message formatter, and its class-level `ERROR_MESSAGE`. -/
structure Validator where
  validate : Val → Except PyErr Bool
  hasErrorMessage : Bool
  message : Val → Str
  classErrorMessage : Str

/-- The message the chain records for a failing validator: `message(value)`
for an instance, the class `ERROR_MESSAGE` for a class used statically. -/
def msgOf (value : Val) (vd : Validator) : Str :=
  if vd.hasErrorMessage then vd.message value else vd.classErrorMessage

/-- `ValidatedParameter.validate`: run the validators in declaration order,
collecting the failing ones' messages; with `group_errors` false, stop at
the first failure. -/
def chainValidate (validators : List Validator) (value : Val) (groupErrors : Bool) :
    Except PyErr (List Str) :=
  match validators with
  | [] => .ok []
  | vd :: rest =>
    match vd.validate value with
    | .error e => .error e
    | .ok b =>
      if b then chainValidate rest value groupErrors
      else if groupErrors then
        match chainValidate rest value groupErrors with
        | .error e => .error e
        | .ok more => .ok (msgOf value vd :: more)
      else .ok [msgOf value vd]

/-! ## decoders.py -/

/-- The external decoding collaborators (`json.loads`, `jwt.decode`):
abstract parameters, per the spec's exclusion of the JSON parser and the
JWT library.  Their memoisation (`lru_cache`) is value-transparent. -/
structure Codecs where
  jsonLoads : Val → Except PyErr Val
  jwtDecode : Val → Except PyErr Val

/-- The diagnostic logged by `decode` for an unknown annotation
(`DECODE_FUNC_MISSING_ERROR % annotation`). -/
def decodeFuncMissingMsg (a : Str) : Str :=
  "Missing decode function for annotation: ".toList ++ a

/-- Python `value[n]` for a non-negative integer index `n` (the only form
`decode` produces, since `int(annotation)` of a digit string is
non-negative): list/string indexing with `IndexError` out of range,
`KeyError` on the (string-keyed) dictionaries, `TypeError` elsewhere. -/
def pyIndexInt (value : Val) (n : Nat) : Except PyErr Val :=
  match value with
  | .list xs =>
    match xs.get? n with
    | some x => .ok x
    | none => .error .indexError
  | .str s =>
    match s.get? n with
    | some c => .ok (.str [c])
    | none => .error .indexError
  | .dict _ => .error .keyError
  | _ => .error .typeError

/-- `decoders.decode`, returning the decoded value (or the raised error)
together with the list of logged diagnostics.  A falsy annotation (absent
or empty) passes the value through; an all-digit annotation indexes into
the value; `json`/`jwt` dispatch to the registered `decode_<token>`
functions; any other token has no `decode_<token>` attribute in the module,
so it is logged and the value passes through unchanged. -/
def decode (cs : Codecs) (ann : Option Str) (value : Val) :
    Except PyErr Val × List Str :=
  match ann with
  | none => (.ok value, [])
  | some a =>
    if a.isEmpty then (.ok value, [])
    else if pyIsDigit a then (pyIndexInt value (digitsToNat a), [])
    else if a = "json".toList then (cs.jsonLoads value, [])
    else if a = "jwt".toList then (cs.jwtDecode value, [])
    else (.ok value, [decodeFuncMissingMsg a])

/-! ## classes.py -/

/-- Character membership in a string (Python `"[" in key` for a
one-character needle). -/
def strContainsChar (c : Char) (s : Str) : Bool := s.any (fun d => d = c)

/-- `Parameter.get_annotations_from_key`: when both brackets occur, the
candidate annotation is the slice strictly between the first `[` and the
first `]` (each located from the start of the string), the real key is the
segment with every occurrence of `[` + annotation + `]` removed; otherwise
the segment is returned untouched with no annotation. -/
def getAnnotationsFromKey (key : Str) : Str × Option Str :=
  if strContainsChar '[' key && strContainsChar ']' key then
    (pyReplace
      ('[' :: (pySlice (pyFindIdx '[' key + 1) (pyFindIdx ']' key) key ++ [']']))
      [] key,
     some (pySlice (pyFindIdx '[' key + 1) (pyFindIdx ']' key) key))
  else (key, none)

/-- A `Parameter` descriptor's state: its five constructor-set fields. -/
structure Parameter where
  path : Str
  funcParamName : Option Str
  validators : List Validator
  name : Option Str
  default : Val

/-- Truthiness of a Python-string-or-None field (`if not self._name`). -/
def truthyOptStr : Option Str → Bool
  | none => false
  | some s => !s.isEmpty

/-- Python `real_key in dict_value` for a string `real_key`: key membership
for dictionaries, `==`-membership for lists, substring test for strings,
`TypeError` for the non-container values. -/
def pyContains (k : Str) (v : Val) : Except PyErr Bool :=
  match v with
  | .dict es => .ok (es.any (fun e => e.1 = k))
  | .list xs => .ok (xs.any (fun x => pyEq x (.str k)))
  | .str s => .ok (isSubstring k s)
  | _ => .error .typeError

/-- Python `dict_value[real_key]` for a string key: dictionary lookup
(`KeyError` when absent); lists and strings reject string subscripts with
`TypeError`. -/
def pyGetItemStr (k : Str) (v : Val) : Except PyErr Val :=
  match v with
  | .dict es =>
    match es.find? (fun e => e.1 = k) with
    | some e => .ok e.2
    | none => .error .keyError
  | _ => .error .typeError

/-- The loop of `Parameter.extract_value` over the non-empty path segments:
`if dict_value and real_key in dict_value:` descend through `decode`, else
substitute the descriptor's default; the last iteration's `real_key` is
remembered. -/
def walkSegs (cs : Codecs) (dflt : Val) :
    List Str → Val → Option Str → Except PyErr (Val × Option Str)
  | [], v, lastKey => .ok (v, lastKey)
  | seg :: rest, v, _ =>
    let rk := (getAnnotationsFromKey seg).1
    if pyTruthy v then
      match pyContains rk v with
      | .error e => .error e
      | .ok true =>
        match pyGetItemStr rk v with
        | .error e => .error e
        | .ok item =>
          match (decode cs (getAnnotationsFromKey seg).2 item).1 with
          | .error e => .error e
          | .ok v2 => walkSegs cs dflt rest v2 (some rk)
      | .ok false => walkSegs cs dflt rest dflt (some rk)
    else walkSegs cs dflt rest dflt (some rk)

/-- `Parameter.extract_value`: walk the filtered path segments, then
`if not self._name: self._name = real_key` — the descriptor is returned
updated, since this mutates it; with no segments ever walked, `real_key`
is an unbound local (`UnboundLocalError`). -/
def extractValue (cs : Codecs) (p : Parameter) (dictValue : Val) :
    Except PyErr (Val × Parameter) :=
  match walkSegs cs p.default ((pySplit '/' p.path).filter (fun s => !s.isEmpty))
      dictValue none with
  | .error e => .error e
  | .ok (v, lastKey) =>
    if truthyOptStr p.name then .ok (v, p)
    else
      match lastKey with
      | some k => .ok (v, { p with name := some k })
      | none => .error .unboundLocalError

/-- `Parameter.validate_path`: the error-group key is the raw last piece of
`self._path.split(PATH_DIVIDER)` (no filtering, no annotation parsing);
the chain's errors, if any, are wrapped as the one-entry dictionary
`\x7bkey: errors\x7d`. -/
def validatePath (p : Parameter) (value : Val) (groupErrors : Bool) :
    Except PyErr (List (Str × List Str)) :=
  match chainValidate p.validators value groupErrors with
  | .error e => .error e
  | .ok errs =>
    .ok (if errs.isEmpty then [] else [((pySplit '/' p.path).getLastD [], errs)])

/-- `BaseParameter.get_var_name`: raise `SyntaxError` when a truthy name is
not a valid variable name, else return the (possibly empty or `None`)
name. -/
def getVarName (p : Parameter) : Except PyErr (Option Str) :=
  match p.name with
  | some s =>
    if !s.isEmpty && !isValidVariableName s then .error .syntaxError
    else .ok (some s)
  | none => .ok none

/-! ## decorators.py / utils.py -/

/-- `decorators.ERROR_MESSAGE`. -/
def ERROR_MESSAGE : Str := "Error extracting parameters".toList

/-- `utils.failure`: the error envelope
`\x7b"statusCode": status, "body": json.dumps(\x7b"message": errors\x7d)\x7d`;
every call site in `extract` leaves the status at its default of 400
(`HTTPStatus.BAD_REQUEST`). -/
def failure (errors : Val) (statusCode : Nat) : Val :=
  .dict [("statusCode".toList, .int statusCode),
         ("body".toList, .str (pyJsonDumps (.dict [("message".toList, errors)])))]

/-- `arg_dictionary[param.func_param_name]`: dictionary lookup by the
source-argument name (`KeyError` when absent; a `None` name is likewise
absent from the string-keyed argument dictionary). -/
def lookupArg (argDict : List (Str × Val)) : Option Str → Except PyErr Val
  | some nm =>
    match argDict.find? (fun e => e.1 = nm) with
    | some e => .ok e.2
    | none => .error .keyError
  | none => .error .keyError

/-- Dictionary assignment `kwargs[name] = value` (replace or append). -/
def kwSet (kwargs : List (Option Str × Val)) (k : Option Str) (v : Val) :
    List (Option Str × Val) :=
  match kwargs with
  | [] => [(k, v)]
  | (k2, v2) :: rest => if k2 = k then (k2, v) :: rest else (k2, v2) :: kwSet rest k v

/-- The Python list of error dictionaries, as the envelope serialises it. -/
def errorsToVal (errors : List (Str × List Str)) : Val :=
  .list (errors.map (fun g => .dict [(g.1, .list (g.2.map Val.str))]))

/-- Outcome of `extract`'s parameter loop: an exception reached the
`except` clause, the loop returned early (`group_errors` false and a
parameter failed validation), or the loop ran to completion. -/
inductive LoopOut where
  | raised (e : PyErr)
  | early (errors : List (Str × List Str))
  | done (errors : List (Str × List Str)) (kwargs : List (Option Str × Val))

/-- The `for param in parameters:` loop of `extract`'s wrapper. -/
def runLoop (cs : Codecs) (groupErrors allowNoneDefaults : Bool)
    (argDict : List (Str × Val)) :
    List Parameter → List (Str × List Str) → List (Option Str × Val) → LoopOut
  | [], errors, kwargs => .done errors kwargs
  | p :: rest, errors, kwargs =>
    match lookupArg argDict p.funcParamName with
    | .error e => .raised e
    | .ok paramVal =>
      match extractValue cs p paramVal with
      | .error e => .raised e
      | .ok (returnVal, p2) =>
        match validatePath p2 returnVal groupErrors with
        | .error e => .raised e
        | .ok paramErrors =>
          if !paramErrors.isEmpty then
            if !groupErrors then .early (errors ++ paramErrors)
            else runLoop cs groupErrors allowNoneDefaults argDict rest
              (errors ++ paramErrors) kwargs
          else if allowNoneDefaults ||
              (match returnVal with | .null => false | _ => true) then
            match getVarName p2 with
            | .error e => .raised e
            | .ok nm => runLoop cs groupErrors allowNoneDefaults argDict rest
                errors (kwSet kwargs nm returnVal)
          else runLoop cs groupErrors allowNoneDefaults argDict rest errors kwargs

/-- The wrapper `extract(parameters, group_errors, allow_none_defaults)`
builds: run the loop over the argument dictionary; a raised exception
becomes the generic 400 envelope, collected validation errors become a 400
envelope with the error groups, and otherwise the wrapped handler runs with
the accumulated keyword arguments. -/
def extractDecorator (cs : Codecs) (ps : List Parameter)
    (groupErrors allowNoneDefaults : Bool) (argDict : List (Str × Val))
    (kw0 : List (Option Str × Val)) (handler : List (Option Str × Val) → Val) : Val :=
  match runLoop cs groupErrors allowNoneDefaults argDict ps [] kw0 with
  | .raised _ => failure (.str ERROR_MESSAGE) 400
  | .early errors => failure (errorsToVal errors) 400
  | .done errors kwargs =>
    if groupErrors && !errors.isEmpty then failure (errorsToVal errors) 400
    else handler kwargs

/-- The in-place `param.func_param_name = <name>` loop shared by
`extract_from_event` and `extract_from_context`. -/
def setFuncParamName (nm : Str) (ps : List Parameter) : List Parameter :=
  ps.map (fun p => { p with funcParamName := some nm })

/-- `extract_from_event`: point every parameter at the `event` argument,
then `extract`. -/
def extractFromEvent (cs : Codecs) (ps : List Parameter)
    (groupErrors allowNoneDefaults : Bool) (argDict : List (Str × Val))
    (kw0 : List (Option Str × Val)) (handler : List (Option Str × Val) → Val) : Val :=
  extractDecorator cs (setFuncParamName "event".toList ps)
    groupErrors allowNoneDefaults argDict kw0 handler

/-- `extract_from_context`: point every parameter at the `context`
argument, then `extract`. -/
def extractFromContext (cs : Codecs) (ps : List Parameter)
    (groupErrors allowNoneDefaults : Bool) (argDict : List (Str × Val))
    (kw0 : List (Option Str × Val)) (handler : List (Option Str × Val) → Val) : Val :=
  extractDecorator cs (setFuncParamName "context".toList ps)
    groupErrors allowNoneDefaults argDict kw0 handler

/-! ## Theorems -/

/-- C3: `Mandatory.validate` rejects `None` and the empty string (through
Python truthiness of its return value), while every other validator variant
— regex, schema, minimum, maximum, min-length, max-length, type, enum,
non-empty, date, currency — accepts `None`, whatever its configuration. -/
theorem c3_none_valid_except_mandatory :
    mandatoryValidate .null = false ∧
    mandatoryValidate (.str []) = false ∧
    (∀ fullmatch, regexValidate fullmatch .null = .ok true) ∧
    (∀ schemaOk, schemaValidate schemaOk .null = true) ∧
    (∀ q, minimumValidate q .null = true) ∧
    (∀ q, maximumValidate q .null = true) ∧
    (∀ n, minLengthValidate n .null = true) ∧
    (∀ n, maxLengthValidate n .null = true) ∧
    (∀ isInst, typeValidate isInst .null = true) ∧
    (∀ cond, enumValidate cond .null = true) ∧
    nonEmptyValidate .null = true ∧
    (∀ dateOk, dateValidate dateOk .null = .ok true) ∧
    currencyValidate .null = .ok true :=
  ⟨rfl, rfl, fun _ => rfl, fun _ => rfl, fun _ => rfl, fun _ => rfl,
   fun _ => rfl, fun _ => rfl, fun _ => rfl, fun _ => rfl, rfl,
   fun _ => rfl, rfl⟩

/-- C10: `NonEmpty.validate` accepts `None` and every numeric zero —
`0`, `0.0`, `0j` and `False` (which compares `== 0`) — while rejecting the
empty string, the empty list and the empty dictionary. -/
theorem c10_nonEmpty_numeric_zero_valid :
    nonEmptyValidate .null = true ∧
    nonEmptyValidate (.int 0) = true ∧
    nonEmptyValidate (.float 0) = true ∧
    nonEmptyValidate (.complexV 0 0) = true ∧
    nonEmptyValidate (.bool false) = true ∧
    nonEmptyValidate (.str []) = false ∧
    nonEmptyValidate (.list []) = false ∧
    nonEmptyValidate (.dict []) = false :=
  ⟨rfl, by decide, by decide, by decide, by decide, rfl, rfl, rfl⟩

/-- A concrete instantiation of the abstract decode collaborators, used by
the closed witnesses. -/
def csW : Codecs where
  jsonLoads := fun _ => .ok .null
  jwtDecode := fun _ => .ok .null

/-- C5: `decode`'s dispatch — a falsy annotation (absent or empty) returns
the value unchanged; an all-digit annotation `n` indexes `value[int(n)]`
(with an out-of-range index error propagating through `pyIndexInt`); the
`json` annotation applies `json.loads`; and any other token, having no
`decode_<token>` function, logs the missing-decode-function diagnostic and
returns the value unchanged instead of raising. -/
theorem c5_decode_dispatch :
    (∀ cs v, decode cs none v = (.ok v, [])) ∧
    (∀ cs v, decode cs (some []) v = (.ok v, [])) ∧
    (∀ cs v a, a ≠ [] → (∀ c ∈ a, c.isDigit) →
      decode cs (some a) v = (pyIndexInt v (digitsToNat a), [])) ∧
    (∀ cs v, decode cs (some "json".toList) v = (cs.jsonLoads v, [])) ∧
    (∀ cs v a, a ≠ [] → ¬(∀ c ∈ a, c.isDigit) →
      a ≠ "json".toList → a ≠ "jwt".toList →
      decode cs (some a) v = (.ok v, [decodeFuncMissingMsg a])) := by
  refine ⟨fun cs v => rfl, fun cs v => rfl, ?_, fun cs v => rfl, ?_⟩
  · intro cs v a ha hdig
    have h1 : a.isEmpty = false := by
      cases a with
      | nil => exact absurd rfl ha
      | cons c rest => rfl
    have h2 : pyIsDigit a = true := by
      simp only [pyIsDigit, h1, Bool.not_false, Bool.true_and, List.all_eq_true]
      exact hdig
    simp [decode, h1, h2]
  · intro cs v a ha hdig hjson hjwt
    have h1 : a.isEmpty = false := by
      cases a with
      | nil => exact absurd rfl ha
      | cons c rest => rfl
    have h2 : pyIsDigit a = false := by
      simp only [pyIsDigit, h1, Bool.not_false, Bool.true_and]
      simpa [List.all_eq_true] using hdig
    have hj1 : a ≠ ['j', 's', 'o', 'n'] := by simpa using hjson
    have hj2 : a ≠ ['j', 'w', 't'] := by simpa using hjwt
    simp [decode, h1, h2, hj1, hj2]

/-- Closed witness for C5: the digit annotation `1` picks index 1 of a
list, and the unknown annotation `blah` logs and passes the value
through. -/
theorem c5_decode_dispatch_witness :
    ("1".toList ≠ ([] : Str) ∧ (∀ c ∈ "1".toList, c.isDigit)) ∧
    decode csW (some "1".toList) (.list [.int 7, .int 9]) = (.ok (.int 9), []) ∧
    ("blah".toList ≠ ([] : Str) ∧ ¬(∀ c ∈ "blah".toList, c.isDigit) ∧
      "blah".toList ≠ "json".toList ∧ "blah".toList ≠ "jwt".toList) ∧
    decode csW (some "blah".toList) (.int 5) =
      (.ok (.int 5), [decodeFuncMissingMsg "blah".toList]) := by
  refine ⟨⟨by decide, by decide⟩, ?_, ⟨by decide, by decide, by decide, by decide⟩, ?_⟩
  · exact (c5_decode_dispatch.2.2.1 csW (.list [.int 7, .int 9]) "1".toList
      (by decide) (by decide)).trans rfl
  · exact c5_decode_dispatch.2.2.2.2 csW (.int 5) "blah".toList
      (by decide) (by decide) (by decide) (by decide)

/-! ### Annotation-parser lemmas (C6) -/

theorem strContainsChar_iff (c : Char) (s : Str) :
    strContainsChar c s = true ↔ c ∈ s := by
  simp [strContainsChar, List.any_eq_true]

theorem strIsPre_refl (s : Str) : strIsPre s s = true := by
  induction s with
  | nil => rfl
  | cons c rest ih => simp [strIsPre, ih]

theorem pyFindIdx_append (c : Char) :
    ∀ l r : Str, c ∉ l → pyFindIdx c (l ++ c :: r) = l.length := by
  intro l
  induction l with
  | nil => intro r _; simp [pyFindIdx]
  | cons d rest ih =>
    intro r hmem
    have hd : d ≠ c := fun h => hmem (h ▸ List.mem_cons_self d rest)
    simp [pyFindIdx, hd, ih r (fun h => hmem (List.mem_cons_of_mem d h))]

theorem pyReplaceAux_nil (pat repl : Str) (fuel : Nat) :
    pyReplaceAux pat repl fuel [] = [] := by
  cases fuel <;> rfl

theorem pyReplaceAux_boundary (c : Char) (t : Str) :
    ∀ (k : Str) (fuel : Nat), c ∉ k → k.length + t.length + 1 ≤ fuel →
    pyReplaceAux (c :: t) [] fuel (k ++ c :: t) = k := by
  intro k
  induction k with
  | nil =>
    intro fuel _ hf
    match fuel, hf with
    | f + 1, _ =>
      show pyReplaceAux (c :: t) [] (f + 1) (c :: t) = []
      have hpre : strIsPre (c :: t) (c :: t) = true := strIsPre_refl _
      simp [pyReplaceAux, hpre, List.drop_length, pyReplaceAux_nil]
  | cons d rest ih =>
    intro fuel hmem hf
    have hd : d ≠ c := fun h => hmem (h ▸ List.mem_cons_self d rest)
    match fuel, hf with
    | f + 1, hf =>
      show pyReplaceAux (c :: t) [] (f + 1) (d :: (rest ++ c :: t)) = d :: rest
      have hd2 : ¬(c = d) := fun h => hd h.symm
      have hpre : strIsPre (c :: t) (d :: (rest ++ c :: t)) = false := by
        simp [strIsPre, hd2]
      have hrec := ih f (fun h => hmem (List.mem_cons_of_mem d h))
        (by simp only [List.length_cons] at hf; omega)
      simp [pyReplaceAux, hpre, hrec]

/-- C6 (as amended): the annotation of `"k[ann]"` (with `k` and `ann`
bracket-free) is `ann` and its real key is `k`; a segment missing either
bracket parses to `(segment, none)`; but when the first `]` precedes the
first `[`, the slice between the two is empty, so the annotation is the
empty string (not `None`) and the real key is the segment with every
occurrence of `[]` removed. -/
theorem c6_annotations_amended :
    (∀ k a : Str, '[' ∉ k → ']' ∉ k → '[' ∉ a → ']' ∉ a →
      getAnnotationsFromKey (k ++ '[' :: (a ++ [']'])) = (k, some a)) ∧
    (∀ seg : Str, '[' ∉ seg ∨ ']' ∉ seg →
      getAnnotationsFromKey seg = (seg, none)) ∧
    (∀ seg : Str, '[' ∈ seg → ']' ∈ seg →
      pyFindIdx ']' seg < pyFindIdx '[' seg →
      getAnnotationsFromKey seg = (pyReplace ['[', ']'] [] seg, some [])) := by
  refine ⟨?_, ?_, ?_⟩
  · intro k a hk1 hk2 ha1 ha2
    have hmem1 : ('[' : Char) ∈ k ++ '[' :: (a ++ [']']) :=
      List.mem_append_right k (List.mem_cons_self _ _)
    have hmem2 : (']' : Char) ∈ k ++ '[' :: (a ++ [']']) := by
      refine List.mem_append_right k (List.mem_cons_of_mem _ ?_)
      exact List.mem_append_right a (List.mem_cons_self _ _)
    have hfind1 : pyFindIdx '[' (k ++ '[' :: (a ++ [']'])) = k.length :=
      pyFindIdx_append '[' k (a ++ [']']) hk1
    have hfind2 : pyFindIdx ']' (k ++ '[' :: (a ++ [']'])) =
        k.length + 1 + a.length := by
      have hshape : k ++ '[' :: (a ++ [']']) = (k ++ '[' :: a) ++ ']' :: [] := by
        simp
      have hnotmem : (']' : Char) ∉ k ++ '[' :: a := by
        intro h
        rcases List.mem_append.mp h with h | h
        · exact hk2 h
        · rcases List.mem_cons.mp h with h | h
          · exact absurd h.symm (by decide)
          · exact ha2 h
      rw [hshape, pyFindIdx_append ']' (k ++ '[' :: a) [] hnotmem]
      simp only [List.length_append, List.length_cons]
      omega
    have hslice : pySlice (k.length + 1) (k.length + 1 + a.length)
        (k ++ '[' :: (a ++ [']'])) = a := by
      unfold pySlice
      have hshape : k ++ '[' :: (a ++ [']']) = ((k ++ ['[']) ++ a) ++ [']'] := by
        simp
      rw [hshape, List.take_left'
        (by simp only [List.length_append, List.length_cons, List.length_nil])]
      exact List.drop_left'
        (by simp only [List.length_append, List.length_cons, List.length_nil])
    have hreplace : pyReplace ('[' :: (a ++ [']'])) []
        (k ++ '[' :: (a ++ [']'])) = k := by
      unfold pyReplace
      exact pyReplaceAux_boundary '[' (a ++ [']']) k _ hk1
        (by simp only [List.length_append, List.length_cons, List.length_nil]; omega)
    have hcond : (strContainsChar '[' (k ++ '[' :: (a ++ [']'])) &&
        strContainsChar ']' (k ++ '[' :: (a ++ [']']))) = true := by
      rw [(strContainsChar_iff _ _).mpr hmem1, (strContainsChar_iff _ _).mpr hmem2]
      rfl
    unfold getAnnotationsFromKey
    rw [if_pos hcond]
    rw [hfind1, hfind2, hslice, hreplace]
  · intro seg h
    have hcond : (strContainsChar '[' seg && strContainsChar ']' seg) = false := by
      rcases h with h | h
      · have : strContainsChar '[' seg = false := by
          rw [← Bool.not_eq_true, strContainsChar_iff]; exact h
        simp [this]
      · have : strContainsChar ']' seg = false := by
          rw [← Bool.not_eq_true, strContainsChar_iff]; exact h
        simp [this]
    unfold getAnnotationsFromKey
    rw [if_neg (by simp [hcond])]
  · intro seg h1 h2 horder
    have hcond : (strContainsChar '[' seg && strContainsChar ']' seg) = true := by
      rw [(strContainsChar_iff _ _).mpr h1, (strContainsChar_iff _ _).mpr h2]
      rfl
    have hslice : pySlice (pyFindIdx '[' seg + 1) (pyFindIdx ']' seg) seg = [] := by
      unfold pySlice
      refine List.drop_eq_nil_of_le ?_
      calc (seg.take (pyFindIdx ']' seg)).length ≤ pyFindIdx ']' seg := by
            simp [List.length_take]
        _ ≤ pyFindIdx '[' seg + 1 := by omega
    unfold getAnnotationsFromKey
    rw [if_pos hcond, hslice]
    rfl

/-- Closed witness for C6 (amended): `"k[json]"` parses to
`("k", "json")`, the bracket-free `"plain"` parses to itself with no
annotation, and `"a]b[c]"` — first `]` before first `[` — parses to
itself (no `[]` occurrence to remove) with the empty annotation. -/
theorem c6_annotations_amended_witness :
    (('[' ∉ "k".toList) ∧ (']' ∉ "k".toList) ∧
      ('[' ∉ "json".toList) ∧ (']' ∉ "json".toList) ∧
      getAnnotationsFromKey "k[json]".toList = ("k".toList, some "json".toList)) ∧
    (('[' ∉ "plain".toList ∨ ']' ∉ "plain".toList) ∧
      getAnnotationsFromKey "plain".toList = ("plain".toList, none)) ∧
    (('[' ∈ "a]b[c]".toList) ∧ (']' ∈ "a]b[c]".toList) ∧
      pyFindIdx ']' "a]b[c]".toList < pyFindIdx '[' "a]b[c]".toList ∧
      getAnnotationsFromKey "a]b[c]".toList =
        (pyReplace ['[', ']'] [] "a]b[c]".toList, some [])) := by
  refine ⟨⟨by decide, by decide, by decide, by decide, ?_⟩,
    ⟨Or.inl (by decide), ?_⟩, ⟨by decide, by decide, by decide, ?_⟩⟩
  · exact (c6_annotations_amended.1 "k".toList "json".toList
      (by decide) (by decide) (by decide) (by decide)).trans rfl
  · exact c6_annotations_amended.2.1 "plain".toList (Or.inl (by decide))
  · exact c6_annotations_amended.2.2 "a]b[c]".toList
      (by decide) (by decide) (by decide)

/-- C6 counterexample: for the segment `"a]b[c]"` the code does not return
the text strictly between the first `[` and the first `]` following it
(which would be `("a]b", "c")`); it returns the segment unchanged with the
empty-string annotation, because the first `]` of the whole segment comes
before the first `[`. -/
theorem c6_annotations_counterexample :
    getAnnotationsFromKey "a]b[c]".toList = ("a]b[c]".toList, some []) ∧
    getAnnotationsFromKey "a]b[c]".toList ≠ ("a]b".toList, some "c".toList) := by
  constructor
  · rfl
  · intro h
    exact absurd (congrArg Prod.fst h) (by decide)

/-! ### Concrete validator instances (used by the closed witnesses) -/

/-- An instance `Mandatory(error_message)`: its `_condition` is `None`, so
`message` formats the template with `condition=None`. -/
def MandatoryV (errMsg : Option Str) : Validator where
  validate := fun v => .ok (mandatoryValidate v)
  hasErrorMessage := true
  message := fun v =>
    pyFormat (errMsg.getD "Missing mandatory value".toList) (pyStr v) (pyStr .null)
  classErrorMessage := "Missing mandatory value".toList

/-- The class `Mandatory` itself passed as a validator (the "calling the
validator statically" branch of the chain): no `_error_message` attribute,
so the chain records the class `ERROR_MESSAGE`; its instance formatter is
never consulted. -/
def MandatoryCls : Validator where
  validate := fun v => .ok (mandatoryValidate v)
  hasErrorMessage := false
  message := fun _ => []
  classErrorMessage := "Missing mandatory value".toList

/-- An instance `MinLength(min_length, error_message)`. -/
def MinLengthV (minLength : Nat) (errMsg : Option Str) : Validator where
  validate := fun v => .ok (minLengthValidate minLength v)
  hasErrorMessage := true
  message := fun v =>
    pyFormat
      (errMsg.getD "'\x7bvalue\x7d' is shorter than minimum length '\x7bcondition\x7d'".toList)
      (pyStr v) (toString minLength).toList
  classErrorMessage :=
    "'\x7bvalue\x7d' is shorter than minimum length '\x7bcondition\x7d'".toList

/-- C9: the key under which `Parameter.validate_path` files a failing
parameter's errors is the raw last piece of `path.split("/")` — annotation
text included and whatever `var_name` was configured (the key does not
depend on the name at all); for the path `"a/b[json]"` that key is
`"b[json]"`, which is not the parsed real key `"b"`. -/
theorem c9_validate_path_key_raw_segment :
    (∀ (p : Parameter) (value : Val) (ge : Bool) (errs : List Str),
      chainValidate p.validators value ge = .ok errs → errs ≠ [] →
      validatePath p value ge = .ok [((pySplit '/' p.path).getLastD [], errs)]) ∧
    (pySplit '/' "a/b[json]".toList).getLastD [] = "b[json]".toList ∧
    (getAnnotationsFromKey "b[json]".toList).1 = "b".toList ∧
    ("b[json]".toList : Str) ≠ "b".toList := by
  refine ⟨?_, by decide, by decide, by decide⟩
  intro p value ge errs hchain hne
  unfold validatePath
  rw [hchain]
  have hemp : errs.isEmpty = false := by
    cases errs with
    | nil => exact absurd rfl hne
    | cons e rest => rfl
  simp [hemp]

/-- Closed witness for C9: a `Mandatory` failure on `None` under the path
`"a/b[json]"` is filed under the raw key `"b[json]"`. -/
theorem c9_validate_path_key_raw_segment_witness :
    chainValidate [MandatoryV none] .null false =
      .ok ["Missing mandatory value".toList] ∧
    (["Missing mandatory value".toList] : List Str) ≠ [] ∧
    validatePath
      { path := "a/b[json]".toList, funcParamName := some "event".toList,
        validators := [MandatoryV none], name := some "out".toList,
        default := .null } .null false =
      .ok [("b[json]".toList, ["Missing mandatory value".toList])] := by
  refine ⟨rfl, by decide, ?_⟩
  exact (c9_validate_path_key_raw_segment.1
    { path := "a/b[json]".toList, funcParamName := some "event".toList,
      validators := [MandatoryV none], name := some "out".toList,
      default := .null } .null false ["Missing mandatory value".toList]
    rfl (by decide)).trans rfl

/-! ### Path-walker lemmas (C1) -/

theorem walkSegs_falsy (cs : Codecs) (dflt : Val)
    (hd : pyTruthy dflt = false) :
    ∀ (segs : List Str), segs ≠ [] → ∀ (v : Val) (k0 : Option Str),
      pyTruthy v = false →
      ∃ rk, walkSegs cs dflt segs v k0 = .ok (dflt, some rk) := by
  intro segs
  induction segs with
  | nil => intro h; exact absurd rfl h
  | cons seg rest ih =>
    intro _ v k0 hv
    cases rest with
    | nil =>
      refine ⟨(getAnnotationsFromKey seg).1, ?_⟩
      simp [walkSegs, hv]
    | cons s2 r2 =>
      obtain ⟨rk, hrk⟩ := ih (by simp) dflt (some (getAnnotationsFromKey seg).1) hd
      refine ⟨rk, ?_⟩
      simp only [walkSegs, hv]
      simpa using hrk

theorem extractValue_of_walk (cs : Codecs) (p : Parameter) (m v : Val) (k : Str)
    (hw : walkSegs cs p.default ((pySplit '/' p.path).filter (fun s => !s.isEmpty))
        m none = .ok (v, some k)) :
    ∃ p2, extractValue cs p m = .ok (v, p2) := by
  unfold extractValue
  rw [hw]
  by_cases hn : truthyOptStr p.name = true
  · exact ⟨p, by simp [hn]⟩
  · refine ⟨{ p with name := some k }, ?_⟩
    simp [Bool.eq_false_iff.mpr hn]

/-- C1 (as amended): when a path segment's real key is absent from the
current value (or the current value is falsy), `Parameter.extract_value`
substitutes the descriptor's default and **continues** the walk — the
remaining segments are applied to the substituted default.  In particular,
when the default is falsy (e.g. the usual `None`), every remaining lookup
misses as well, so the default is returned as the extraction result; a
truthy default containing later keys is instead descended into. -/
theorem c1_extract_default_amended :
    (∀ (cs : Codecs) (dflt : Val) (seg : Str) (rest : List Str) (v : Val)
        (k0 : Option Str), pyTruthy v = false →
      walkSegs cs dflt (seg :: rest) v k0 =
        walkSegs cs dflt rest dflt (some (getAnnotationsFromKey seg).1)) ∧
    (∀ (cs : Codecs) (dflt : Val) (seg : Str) (rest : List Str) (v : Val)
        (k0 : Option Str), pyTruthy v = true →
      pyContains (getAnnotationsFromKey seg).1 v = .ok false →
      walkSegs cs dflt (seg :: rest) v k0 =
        walkSegs cs dflt rest dflt (some (getAnnotationsFromKey seg).1)) ∧
    (∀ (cs : Codecs) (p : Parameter) (m : Val) (seg : Str) (rest : List Str),
      (pySplit '/' p.path).filter (fun s => !s.isEmpty) = seg :: rest →
      pyTruthy p.default = false →
      (pyTruthy m = false ∨
        pyContains (getAnnotationsFromKey seg).1 m = .ok false) →
      ∃ p2, extractValue cs p m = .ok (p.default, p2)) := by
  refine ⟨?_, ?_, ?_⟩
  · intro cs dflt seg rest v k0 hv
    simp [walkSegs, hv]
  · intro cs dflt seg rest v k0 hv hc
    simp [walkSegs, hv, hc]
  · intro cs p m seg rest hsegs hdflt hmiss
    have hstep : walkSegs cs p.default (seg :: rest) m none =
        walkSegs cs p.default rest p.default (some (getAnnotationsFromKey seg).1) := by
      by_cases hm : pyTruthy m = true
      · rcases hmiss with hmiss | hmiss
        · rw [hm] at hmiss; exact absurd hmiss (by simp)
        · simp [walkSegs, hm, hmiss]
      · simp [walkSegs, Bool.eq_false_iff.mpr hm]
    cases rest with
    | nil =>
      refine extractValue_of_walk cs p m p.default (getAnnotationsFromKey seg).1 ?_
      rw [hsegs, hstep]
      rfl
    | cons s2 r2 =>
      obtain ⟨rk, hrk⟩ := walkSegs_falsy cs p.default hdflt (s2 :: r2) (by simp)
        p.default (some (getAnnotationsFromKey seg).1) hdflt
      refine extractValue_of_walk cs p m p.default rk ?_
      rw [hsegs, hstep, hrk]

/-- Closed witness for C1 (amended): for the path `"a/b"` over the empty
mapping with default `None`, both lookups miss and `None` is returned. -/
theorem c1_extract_default_amended_witness :
    (pySplit '/' "a/b".toList).filter (fun s => !s.isEmpty) =
      ["a".toList, "b".toList] ∧
    pyTruthy Val.null = false ∧
    (∃ p2, extractValue csW
      { path := "a/b".toList, funcParamName := some "event".toList,
        validators := [], name := some "x".toList, default := .null }
      (.dict []) = .ok (.null, p2)) := by
  refine ⟨by decide, rfl, ?_⟩
  exact c1_extract_default_amended.2.2 csW
    { path := "a/b".toList, funcParamName := some "event".toList,
      validators := [], name := some "x".toList, default := .null }
    (.dict []) "a".toList ["b".toList] (by decide) rfl (Or.inr rfl)

/-- C1 counterexample: with path `"a/b"`, an empty mapping and the truthy
default `\x7b"b": 5\x7d`, the walk does **not** stop at the default: the
remaining segment `"b"` is applied to it and the extraction result is `5`,
not the default dictionary itself. -/
theorem c1_extract_default_counterexample :
    extractValue csW
      { path := "a/b".toList, funcParamName := some "event".toList,
        validators := [], name := some "x".toList,
        default := .dict [("b".toList, .int 5)] }
      (.dict []) =
      .ok (.int 5,
        { path := "a/b".toList, funcParamName := some "event".toList,
          validators := [], name := some "x".toList,
          default := .dict [("b".toList, .int 5)] }) ∧
    Val.int 5 ≠ Val.dict [("b".toList, .int 5)] :=
  ⟨rfl, fun h => Val.noConfusion h⟩

/-- The descriptor used by the C8 witness/counterexample: no configured
`var_name`. -/
def pC8 : Parameter where
  path := "a".toList
  funcParamName := some "event".toList
  validators := []
  name := none
  default := .null

/-- C8 (as amended): a `Parameter` is mutated in exactly two documented
ways — `extract_value` backfills the name with the last walked real key
when no truthy `var_name` was configured, and
`extract_from_event`/`extract_from_context` overwrite `func_param_name` —
while `path`, `validators`, `default` (and, under a truthy configured
`var_name`, the name) are never modified by an extraction. -/
theorem c8_parameter_immutability_amended :
    (∀ (cs : Codecs) (p p2 : Parameter) (m v : Val),
      extractValue cs p m = .ok (v, p2) →
      p2.path = p.path ∧ p2.funcParamName = p.funcParamName ∧
      p2.validators = p.validators ∧ p2.default = p.default ∧
      (truthyOptStr p.name = true → p2.name = p.name)) ∧
    (∀ (nm : Str) (ps : List Parameter),
      (setFuncParamName nm ps).map
          (fun p => (p.path, p.validators, p.name, p.default)) =
        ps.map (fun p => (p.path, p.validators, p.name, p.default)) ∧
      (setFuncParamName nm ps).map Parameter.funcParamName =
        ps.map (fun _ => some nm)) := by
  constructor
  · intro cs p p2 m v h
    unfold extractValue at h
    cases hws : walkSegs cs p.default
        ((pySplit '/' p.path).filter (fun s => !s.isEmpty)) m none with
    | error e => rw [hws] at h; exact absurd h (by simp)
    | ok pr =>
      obtain ⟨v2, lk⟩ := pr
      rw [hws] at h
      by_cases hn : truthyOptStr p.name = true
      · simp only [hn, if_true] at h
        obtain ⟨hv, hp⟩ := by simpa using h
        subst hp
        exact ⟨rfl, rfl, rfl, rfl, fun _ => rfl⟩
      · simp only [Bool.eq_false_iff.mpr hn, if_false] at h
        cases lk with
        | none => exact absurd h (by simp)
        | some k =>
          obtain ⟨hv, hp⟩ := by simpa using h
          subst hp
          exact ⟨rfl, rfl, rfl, rfl, fun ht => absurd ht hn⟩
  · intro nm ps
    constructor
    · simp only [setFuncParamName, List.map_map]
      rfl
    · simp only [setFuncParamName, List.map_map]
      rfl

/-- Closed witness for C8 (amended): extracting with no configured
`var_name` leaves `path`, `func_param_name`, `validators` and `default`
untouched even as the name is backfilled. -/
theorem c8_parameter_immutability_amended_witness :
    extractValue csW pC8 (.dict [("a".toList, .int 1)]) =
      .ok (.int 1, { pC8 with name := some "a".toList }) ∧
    ({ pC8 with name := some "a".toList } : Parameter).path = pC8.path ∧
    ({ pC8 with name := some "a".toList } : Parameter).funcParamName =
      pC8.funcParamName ∧
    ({ pC8 with name := some "a".toList } : Parameter).validators =
      pC8.validators ∧
    ({ pC8 with name := some "a".toList } : Parameter).default = pC8.default := by
  have h : extractValue csW pC8 (.dict [("a".toList, .int 1)]) =
      .ok (.int 1, { pC8 with name := some "a".toList }) := rfl
  have hc := c8_parameter_immutability_amended.1 csW pC8
    { pC8 with name := some "a".toList } (.dict [("a".toList, .int 1)]) (.int 1) h
  exact ⟨h, hc.1, hc.2.1, hc.2.2.1, hc.2.2.2.1⟩

/-- C8 counterexample: running an extraction against a `Parameter` with no
configured `var_name` rewrites its name field to the last real key, and
`extract_from_event`'s preamble rewrites `func_param_name` — so the
descriptor is not immutable after construction. -/
theorem c8_parameter_immutability_counterexample :
    extractValue csW pC8 (.dict [("a".toList, .int 1)]) =
      .ok (.int 1, { pC8 with name := some "a".toList }) ∧
    ({ pC8 with name := some "a".toList } : Parameter).name ≠ pC8.name ∧
    (setFuncParamName "event".toList [{ pC8 with funcParamName := none }]).map
        Parameter.funcParamName ≠
      [{ pC8 with funcParamName := none }].map Parameter.funcParamName := by
  refine ⟨rfl, by simp [pC8], by simp [setFuncParamName]⟩

/-- C2: any exception raised inside `extract`'s parameter loop — source
argument lookup (`KeyError`), path walking/decoding, validation, or output
name computation (`SyntaxError`) — is caught by the wrapper's `except` and
turned into exactly
`\x7b"statusCode": 400, "body": json.dumps(\x7b"message": "Error extracting parameters"\x7d)\x7d`;
the result does not depend on the wrapped handler, which is therefore
never invoked. -/
theorem c2_extract_converts_exceptions :
    ∀ (cs : Codecs) (ps : List Parameter) (ge an : Bool)
      (argDict : List (Str × Val)) (kw0 : List (Option Str × Val))
      (handler : List (Option Str × Val) → Val) (e : PyErr),
      runLoop cs ge an argDict ps [] kw0 = .raised e →
      extractDecorator cs ps ge an argDict kw0 handler =
        failure (.str ERROR_MESSAGE) 400 ∧
      extractDecorator cs ps ge an argDict kw0 handler =
        .dict [("statusCode".toList, .int 400),
               ("body".toList,
                .str "\x7b\"message\": \"Error extracting parameters\"\x7d".toList)] ∧
      (∀ handler2, extractDecorator cs ps ge an argDict kw0 handler2 =
        extractDecorator cs ps ge an argDict kw0 handler) := by
  intro cs ps ge an argDict kw0 handler e h
  refine ⟨?_, ?_, ?_⟩
  · unfold extractDecorator
    rw [h]
  · unfold extractDecorator
    rw [h]
    rfl
  · intro handler2
    unfold extractDecorator
    rw [h]

/-- Closed witness for C2: a missing source argument (`KeyError`) under an
empty argument dictionary yields the generic envelope whatever the
handler. -/
theorem c2_extract_converts_exceptions_witness :
    runLoop csW false false [] [pC8] [] [] = .raised .keyError ∧
    extractDecorator csW [pC8] false false [] [] (fun _ => .int 1) =
      .dict [("statusCode".toList, .int 400),
             ("body".toList,
              .str "\x7b\"message\": \"Error extracting parameters\"\x7d".toList)] ∧
    extractDecorator csW [pC8] false false [] [] (fun _ => .int 0) =
      extractDecorator csW [pC8] false false [] [] (fun _ => .int 1) := by
  have h : runLoop csW false false [] [pC8] [] [] = .raised .keyError := rfl
  have hc := c2_extract_converts_exceptions csW [pC8] false false [] []
    (fun _ => .int 1) .keyError h
  exact ⟨h, hc.2.1, hc.2.2 (fun _ => .int 0)⟩

/-- A string value (the shape of a generic failure message). -/
def isStrVal : Val → Bool
  | .str _ => true
  | _ => false

/-- A single error group: a one-entry dictionary mapping a name to a list
of strings. -/
def isErrGroupVal : Val → Bool
  | .dict [(_, .list ms)] => ms.all isStrVal
  | _ => false

/-- A list of error groups (the shape of a validation failure message). -/
def isErrGroupListVal : Val → Bool
  | .list gs => gs.all isErrGroupVal
  | _ => false

theorem errorsToVal_shape (errors : List (Str × List Str)) :
    isErrGroupListVal (errorsToVal errors) = true := by
  unfold errorsToVal isErrGroupListVal
  rw [List.all_eq_true]
  intro g hg
  obtain ⟨⟨k, msgs⟩, _, rfl⟩ := List.mem_map.mp hg
  unfold isErrGroupVal
  rw [List.all_eq_true]
  intro m hm
  obtain ⟨s, _, rfl⟩ := List.mem_map.mp hm
  rfl

/-- C7: every response of the wrapper is either the wrapped handler's own
result or an error envelope `failure m 400` — status defaulted to 400 at
every call site — whose message is a single string (generic failure) or a
list of one-entry objects mapping a name to a list of error strings
(validation failure). -/
theorem c7_failure_envelope_shape :
    ∀ (cs : Codecs) (ps : List Parameter) (ge an : Bool)
      (argDict : List (Str × Val)) (kw0 : List (Option Str × Val))
      (handler : List (Option Str × Val) → Val),
      (∃ kwargs, extractDecorator cs ps ge an argDict kw0 handler =
        handler kwargs) ∨
      (∃ m, extractDecorator cs ps ge an argDict kw0 handler = failure m 400 ∧
        (isStrVal m = true ∨ isErrGroupListVal m = true)) := by
  intro cs ps ge an argDict kw0 handler
  unfold extractDecorator
  cases h : runLoop cs ge an argDict ps [] kw0 with
  | raised e => exact Or.inr ⟨.str ERROR_MESSAGE, rfl, Or.inl rfl⟩
  | early errors => exact Or.inr ⟨errorsToVal errors, rfl, Or.inr (errorsToVal_shape errors)⟩
  | done errors kwargs =>
    by_cases hge : (ge && !errors.isEmpty) = true
    · refine Or.inr ⟨errorsToVal errors, ?_, Or.inr (errorsToVal_shape errors)⟩
      show (if (ge && !errors.isEmpty) = true then failure (errorsToVal errors) 400
        else handler kwargs) = failure (errorsToVal errors) 400
      rw [if_pos hge]
    · refine Or.inl ⟨kwargs, ?_⟩
      show (if (ge && !errors.isEmpty) = true then failure (errorsToVal errors) 400
        else handler kwargs) = handler kwargs
      rw [if_neg hge]

/-! ### Validator-chain lemmas (C4) -/

/-- Whether a (non-raising) validator fails on a value. -/
def failsOn (value : Val) (vd : Validator) : Bool :=
  match vd.validate value with
  | .ok b => !b
  | .error _ => false

theorem chainValidate_grouped (value : Val) :
    ∀ vs : List Validator, (∀ vd ∈ vs, ∃ b, vd.validate value = .ok b) →
    chainValidate vs value true =
      .ok ((vs.filter (failsOn value)).map (msgOf value)) := by
  intro vs
  induction vs with
  | nil => intro _; rfl
  | cons vd rest ih =>
    intro h
    obtain ⟨b, hb⟩ := h vd (List.mem_cons_self vd rest)
    have hrest := ih (fun v hv => h v (List.mem_cons_of_mem vd hv))
    have hfails : failsOn value vd = !b := by simp [failsOn, hb]
    cases b with
    | true =>
      simp only [chainValidate, hb, if_true, hrest, List.filter_cons, hfails]
      simp
    | false =>
      simp only [chainValidate, hb, Bool.false_eq_true, if_false, hrest,
        List.filter_cons, hfails]
      simp

theorem chainValidate_ungrouped (value : Val) :
    ∀ vs : List Validator, (∀ vd ∈ vs, ∃ b, vd.validate value = .ok b) →
    chainValidate vs value false =
      .ok (match vs.find? (failsOn value) with
           | some vd => [msgOf value vd]
           | none => []) := by
  intro vs
  induction vs with
  | nil => intro _; rfl
  | cons vd rest ih =>
    intro h
    obtain ⟨b, hb⟩ := h vd (List.mem_cons_self vd rest)
    have hrest := ih (fun v hv => h v (List.mem_cons_of_mem vd hv))
    have hfails : failsOn value vd = !b := by simp [failsOn, hb]
    cases b with
    | true =>
      have hfind : (vd :: rest).find? (failsOn value) = rest.find? (failsOn value) :=
        List.find?_cons_of_neg _ (by simp [hfails])
      simp only [chainValidate, hb, if_true, hrest, hfind]
    | false =>
      have hfind : (vd :: rest).find? (failsOn value) = some vd :=
        List.find?_cons_of_pos _ (by simp [hfails])
      simp only [chainValidate, hb, Bool.false_eq_true, if_false, hfind]

/-- C4: with two parameters that both fail validation and raise nothing,
`group_errors=True` returns the envelope carrying both parameters' error
groups in declaration order, each group listing every failing validator's
message in declaration order; `group_errors=False` returns only the first
parameter's group carrying only its first failing validator's message, and
the second parameter — whatever it is — is never processed. -/
theorem c4_group_errors_aggregation :
    ∀ (cs : Codecs) (p1 p2 : Parameter) (an : Bool)
      (argDict : List (Str × Val)) (kw0 : List (Option Str × Val))
      (handler : List (Option Str × Val) → Val)
      (a1 v1 : Val) (p1' : Parameter) (a2 v2 : Val) (p2' : Parameter),
      lookupArg argDict p1.funcParamName = .ok a1 →
      extractValue cs p1 a1 = .ok (v1, p1') →
      (∀ vd ∈ p1'.validators, ∃ b, vd.validate v1 = .ok b) →
      (∃ vd ∈ p1'.validators, failsOn v1 vd = true) →
      lookupArg argDict p2.funcParamName = .ok a2 →
      extractValue cs p2 a2 = .ok (v2, p2') →
      (∀ vd ∈ p2'.validators, ∃ b, vd.validate v2 = .ok b) →
      (∃ vd ∈ p2'.validators, failsOn v2 vd = true) →
      (extractDecorator cs [p1, p2] true an argDict kw0 handler =
        failure (errorsToVal
          [((pySplit '/' p1'.path).getLastD [],
            (p1'.validators.filter (failsOn v1)).map (msgOf v1)),
           ((pySplit '/' p2'.path).getLastD [],
            (p2'.validators.filter (failsOn v2)).map (msgOf v2))]) 400) ∧
      (∃ vd1, p1'.validators.find? (failsOn v1) = some vd1 ∧
        ∀ q : Parameter, extractDecorator cs [p1, q] false an argDict kw0 handler =
          failure (errorsToVal
            [((pySplit '/' p1'.path).getLastD [], [msgOf v1 vd1])]) 400) := by
  intro cs p1 p2 an argDict kw0 handler a1 v1 p1' a2 v2 p2'
  intro hl1 he1 hall1 hex1 hl2 he2 hall2 hex2
  have hfil1 : p1'.validators.filter (failsOn v1) ≠ [] := by
    obtain ⟨vd, hmem, hf⟩ := hex1
    exact List.ne_nil_of_mem (List.mem_filter.mpr ⟨hmem, hf⟩)
  have hfil2 : p2'.validators.filter (failsOn v2) ≠ [] := by
    obtain ⟨vd, hmem, hf⟩ := hex2
    exact List.ne_nil_of_mem (List.mem_filter.mpr ⟨hmem, hf⟩)
  have hm1 : ((p1'.validators.filter (failsOn v1)).map (msgOf v1)).isEmpty = false := by
    cases hc : p1'.validators.filter (failsOn v1) with
    | nil => exact absurd hc hfil1
    | cons a l => simp [hc]
  have hm2 : ((p2'.validators.filter (failsOn v2)).map (msgOf v2)).isEmpty = false := by
    cases hc : p2'.validators.filter (failsOn v2) with
    | nil => exact absurd hc hfil2
    | cons a l => simp [hc]
  have hvp1 : validatePath p1' v1 true =
      .ok [((pySplit '/' p1'.path).getLastD [],
        (p1'.validators.filter (failsOn v1)).map (msgOf v1))] := by
    unfold validatePath
    rw [chainValidate_grouped v1 p1'.validators hall1]
    simp [hm1]
  have hvp2 : validatePath p2' v2 true =
      .ok [((pySplit '/' p2'.path).getLastD [],
        (p2'.validators.filter (failsOn v2)).map (msgOf v2))] := by
    unfold validatePath
    rw [chainValidate_grouped v2 p2'.validators hall2]
    simp [hm2]
  constructor
  · have hloop : runLoop cs true an argDict [p1, p2] [] kw0 =
        .done [((pySplit '/' p1'.path).getLastD [],
          (p1'.validators.filter (failsOn v1)).map (msgOf v1)),
         ((pySplit '/' p2'.path).getLastD [],
          (p2'.validators.filter (failsOn v2)).map (msgOf v2))] kw0 := by
      simp only [runLoop, hl1, he1, hvp1, hl2, he2, hvp2, List.isEmpty_cons,
        Bool.not_false, Bool.not_true, if_true, Bool.false_eq_true, if_false,
        List.nil_append, List.cons_append, List.append_nil]
    unfold extractDecorator
    rw [hloop]
    simp
  · obtain ⟨vd1, hvd1⟩ := Option.isSome_iff_exists.mp
      (List.find?_isSome.mpr (by
        obtain ⟨vd, hmem, hf⟩ := hex1
        exact ⟨vd, hmem, hf⟩))
    refine ⟨vd1, hvd1, ?_⟩
    intro q
    have hvp1u : validatePath p1' v1 false =
        .ok [((pySplit '/' p1'.path).getLastD [], [msgOf v1 vd1])] := by
      unfold validatePath
      rw [chainValidate_ungrouped v1 p1'.validators hall1, hvd1]
      simp
    have hloop : runLoop cs false an argDict [p1, q] [] kw0 =
        .early [((pySplit '/' p1'.path).getLastD [], [msgOf v1 vd1])] := by
      simp only [runLoop, hl1, he1, hvp1u, List.isEmpty_cons, Bool.not_false,
        Bool.not_true, if_true, List.nil_append]
    unfold extractDecorator
    rw [hloop]

/-- First witness parameter for C4: both of its validators fail on the
extracted empty string. -/
def pW1 : Parameter where
  path := "a".toList
  funcParamName := some "event".toList
  validators := [MandatoryV none, MinLengthV 3 none]
  name := some "x".toList
  default := .null

/-- Second witness parameter for C4: its validator fails on the extracted
`None`. -/
def pW2 : Parameter where
  path := "b".toList
  funcParamName := some "event".toList
  validators := [MandatoryV none]
  name := some "y".toList
  default := .null

/-- The witness argument dictionary for C4. -/
def adW : List (Str × Val) := [("event".toList, .dict [("a".toList, .str [])])]

/-- Closed witness for C4: grouped mode reports both parameters' groups
(with both failing messages of the first), ungrouped mode reports only the
first parameter's first message. -/
theorem c4_group_errors_aggregation_witness :
    lookupArg adW pW1.funcParamName = .ok (.dict [("a".toList, .str [])]) ∧
    extractValue csW pW1 (.dict [("a".toList, .str [])]) = .ok (.str [], pW1) ∧
    (∀ vd ∈ pW1.validators, ∃ b, vd.validate (.str []) = .ok b) ∧
    (∃ vd ∈ pW1.validators, failsOn (.str []) vd = true) ∧
    lookupArg adW pW2.funcParamName = .ok (.dict [("a".toList, .str [])]) ∧
    extractValue csW pW2 (.dict [("a".toList, .str [])]) = .ok (.null, pW2) ∧
    (∀ vd ∈ pW2.validators, ∃ b, vd.validate .null = .ok b) ∧
    (∃ vd ∈ pW2.validators, failsOn .null vd = true) ∧
    extractDecorator csW [pW1, pW2] true false adW [] (fun _ => .int 7) =
      failure (errorsToVal
        [("a".toList, ["Missing mandatory value".toList,
                       "'' is shorter than minimum length '3'".toList]),
         ("b".toList, ["Missing mandatory value".toList])]) 400 ∧
    extractDecorator csW [pW1, pW2] false false adW [] (fun _ => .int 7) =
      failure (errorsToVal [("a".toList, ["Missing mandatory value".toList])]) 400 := by
  have hall1 : ∀ vd ∈ pW1.validators, ∃ b, vd.validate (.str []) = .ok b := by
    intro vd hvd
    cases hvd with
    | head => exact ⟨false, rfl⟩
    | tail _ h2 =>
      cases h2 with
      | head => exact ⟨false, rfl⟩
      | tail _ h3 => cases h3
  have hall2 : ∀ vd ∈ pW2.validators, ∃ b, vd.validate .null = .ok b := by
    intro vd hvd
    cases hvd with
    | head => exact ⟨false, rfl⟩
    | tail _ h3 => cases h3
  have hex1 : ∃ vd ∈ pW1.validators, failsOn (.str []) vd = true :=
    ⟨MandatoryV none, List.mem_cons_self _ _, rfl⟩
  have hex2 : ∃ vd ∈ pW2.validators, failsOn .null vd = true :=
    ⟨MandatoryV none, List.mem_cons_self _ _, rfl⟩
  have hc := c4_group_errors_aggregation csW pW1 pW2 false adW []
    (fun _ => .int 7) (.dict [("a".toList, .str [])]) (.str []) pW1
    (.dict [("a".toList, .str [])]) .null pW2
    rfl rfl hall1 hex1 rfl rfl hall2 hex2
  obtain ⟨vd1, hfind, hq⟩ := hc.2
  have hf : pW1.validators.find? (failsOn (.str [])) = some (MandatoryV none) := rfl
  rw [hf] at hfind
  have hvd1 : vd1 = MandatoryV none := by
    injection hfind.symm
  subst hvd1
  exact ⟨rfl, rfl, hall1, hex1, rfl, rfl, hall2, hex2,
    hc.1.trans rfl, (hq pW2).trans rfl⟩
